import Mathlib

/-!
# Verification of the media_storage content-addressed upload and integrity layer

A shallow embedding of the TypeScript sources in `src/`:

* `src/utils/integrity.ts` — SRI digest-tag parsing and base64→hex decoding
  (`parseSRI`, `base64ToHex`, `sriToHex`);
* `src/utils/encryptions.ts` — `computeSRI`, `buildImmutableKey`, `hashString`;
* `src/utils/validate.ts` — `assertHasIntegrity`;
* `src/utils/universalIntegrityVerifier.ts` — `verifyStorage` and its
  per-backend helpers `verifyR2` / `verifyFirebase` / `verifyDrive`, plus
  `deleteFileFromStorage` with `deleteR2` / `deleteFirebase` / `deleteDrive`;
* the three upload orchestrators: `CloudFlareR2StorageService.uploadFile`
  (`src/services/cloudFlareR2Storage.ts`), `FirebaseStorageService.uploadFile`
  (`src/services/firebaseStorage.ts`) and
  `GoogleDriveStorageService.uploadFile` (`src/mediaStorage.ts` bundle).

Bytes are `Nat` values, with `< 256` bounds carried as hypotheses where the
arithmetic needs them.  The cryptographic hash functions supplied by Node's
`crypto` module (SHA-256 for `computeSRI`/`buildImmutableKey`, MD5 for
`hashString`) are external to the repository, so they appear as explicit
function parameters (`H`, `M`); everything the repository itself computes on
top of them is embedded concretely.  Asynchronous backend calls (S3 HEAD/PUT,
GCS exists/metadata, Drive files.get) are embedded by passing each call's
outcome as an explicit argument, the standard shallow embedding of one
`await` on an external client.
-/

namespace MediaStorage

/-! ## Base64 and hex codecs (Node `Buffer` semantics used by the source) -/

/-- The standard base64 alphabet used by Node's `Buffer` base64 codec. -/
def b64Alphabet : List Char :=
  "ABCDEFGHIJKLMNOPQRSTUVWXYZabcdefghijklmnopqrstuvwxyz0123456789+/".data

/-- Character for a 6-bit group, as produced by `digest('base64')`. -/
def b64EncChar (n : Nat) : Char := b64Alphabet.getD n 'A'

/-- Decode one base64 character; `none` for characters outside the alphabet
(`Buffer.from(s, 'base64')` skips those, including the `=` padding). -/
def b64DecChar (c : Char) : Option Nat := b64Alphabet.indexOf? c

/-- Base64-encode a byte list, three bytes to four characters, with `=`
padding, as `crypto.Hash.digest('base64')` does. -/
def b64EncodeBytes : List Nat → List Char
  | b1 :: b2 :: b3 :: rest =>
      b64EncChar (b1 / 4) :: b64EncChar (b1 % 4 * 16 + b2 / 16) ::
      b64EncChar (b2 % 16 * 4 + b3 / 64) :: b64EncChar (b3 % 64) ::
      b64EncodeBytes rest
  | [b1, b2] =>
      [b64EncChar (b1 / 4), b64EncChar (b1 % 4 * 16 + b2 / 16),
       b64EncChar (b2 % 16 * 4), '=']
  | [b1] =>
      [b64EncChar (b1 / 4), b64EncChar (b1 % 4 * 16), '=', '=']
  | [] => []

/-- Rebuild bytes from a list of 6-bit groups, four groups to three bytes; a
trailing group of three (resp. two) yields two bytes (resp. one), and a lone
trailing group yields nothing — Node's lenient base64 decoding. -/
def b64DecodeSextets : List Nat → List Nat
  | s1 :: s2 :: s3 :: s4 :: rest =>
      (s1 * 4 + s2 / 16) :: (s2 % 16 * 16 + s3 / 4) :: (s3 % 4 * 64 + s4) ::
      b64DecodeSextets rest
  | [s1, s2, s3] => [s1 * 4 + s2 / 16, s2 % 16 * 16 + s3 / 4]
  | [s1, s2] => [s1 * 4 + s2 / 16]
  | [_] => []
  | [] => []

/-- Model of `Buffer.from(s, 'base64')`: skip non-alphabet characters (padding
included), then decode the 6-bit groups. -/
def jsBase64Decode (cs : List Char) : List Nat :=
  b64DecodeSextets (cs.filterMap b64DecChar)

/-- The lowercase hex digits of `Buffer.toString('hex')`. -/
def hexDigits : List Char := "0123456789abcdef".data

/-- Two lowercase hex characters for one byte. -/
def hexEncodeByte (b : Nat) : List Char :=
  [hexDigits.getD (b / 16) '0', hexDigits.getD (b % 16) '0']

/-- Model of `Buffer.toString('hex')`: lowercase hex of a byte list. -/
def bytesToHex (bs : List Nat) : String :=
  ⟨(bs.map hexEncodeByte).flatten⟩

/-! ## JS string helpers used by `integrity.ts`

`sri.split('-', 2)[1]` and the destructuring `[algo, b64] = sri.split('-')`
both select the characters strictly between the first `'-'` and the next
`'-'` (or the end), and are `undefined` when the string has no `'-'`. -/

/-- Characters before the first `'-'` (the whole list when there is none). -/
def takeUntilDash : List Char → List Char
  | [] => []
  | c :: rest => if c = '-' then [] else c :: takeUntilDash rest

/-- The second field of `split('-')`: the characters strictly between the
first `'-'` and the following `'-'` or the end; `none` when no `'-'` occurs
(JS destructuring then yields `undefined`). -/
def afterFirstDash : List Char → Option (List Char)
  | [] => none
  | c :: rest => if c = '-' then some (takeUntilDash rest) else afterFirstDash rest

/-! ## `src/utils/integrity.ts` -/

/-- Model of `parseSRI(sri)`: split on `'-'` and return the first two fields.  The
source performs no validation; the `b64` component is `none` exactly when the
input contains no dash. -/
def parseSRI (sri : String) : String × Option String :=
  (⟨takeUntilDash sri.data⟩, (afterFirstDash sri.data).map (⟨·⟩))

/-- Model of `base64ToHex(b64)`: `Buffer.from(b64, 'base64').toString('hex')`. -/
def base64ToHex (b64 : String) : String :=
  bytesToHex (jsBase64Decode b64.data)

/-- Model of `sriToHex(sri)`: take the second field of `sri.split('-', 2)` and decode
it as base64 into hex.  When the tag has no dash the field is `undefined` and
`Buffer.from(undefined, 'base64')` throws a `TypeError`, embedded as
`Except.error`. -/
def sriToHex (sri : String) : Except String String :=
  match afterFirstDash sri.data with
  | none => .error "TypeError: argument must not be undefined"
  | some b64 => .ok (bytesToHex (jsBase64Decode b64))

/-! ## Data model (`src/types.ts` bundle) -/

/-- The closed provider tag `StorageProvider = 'r2' | 'firebase' | 'drive'`. -/
inductive Provider
  | r2
  | firebase
  | drive
deriving DecidableEq, Repr

/-- The provider-tagged `StorageLocator` union. -/
inductive StorageLocator
  | r2 (bucket key : String)
  | firebase (bucket objectPath : String)
  | drive (fileId : String) (shouldSupportSharedDrives : Bool)
deriving DecidableEq, Repr

/-- The discriminant read by the `switch (locator.provider)` dispatches. -/
def StorageLocator.provider : StorageLocator → Provider
  | .r2 _ _ => .r2
  | .firebase _ _ => .firebase
  | .drive _ _ => .drive

deriving instance DecidableEq for Except

/-- Model of `StorageResult`: all fields beyond `url`/`downloadUrl` are optional in the
TypeScript type; `integrity` is the SRI digest tag. -/
structure StorageResult where
  url : String
  downloadUrl : String
  key : Option String
  integrity : Option String
  sizeBytes : Option Nat
  locator : Option StorageLocator
  provider : Option Provider
deriving DecidableEq, Repr

/-! ## `src/utils/encryptions.ts` -/

/-- Model of `hashString(text)`: MD5 hex of the text via Node `crypto`.  MD5 itself is
external to the repository, so it is the parameter `M`; the source adds
nothing on top of the call. -/
def hashString (M : String → String) (text : String) : String := M text

/-- Model of `sha256Hex(buf)`: hex of the SHA-256 digest; the digest function supplied
by Node `crypto` is the parameter `H`. -/
def sha256Hex (H : List Nat → List Nat) (buf : List Nat) : String :=
  bytesToHex (H buf)

/-- Model of `shortHash(hex, len)`: `hex.slice(0, len)`. -/
def shortHash (hex : String) (len : Nat := 16) : String :=
  ⟨hex.data.take len⟩

/-- Characters after the last `'/'` — the basename step of `path.extname`. -/
def afterLastSlash : List Char → List Char
  | [] => []
  | c :: rest => if c = '/' ∨ '/' ∈ rest then afterLastSlash rest else c :: rest

/-- The suffix of the list starting at its last `'.'`, when one exists. -/
def lastDotSuffix : List Char → Option (List Char)
  | [] => none
  | c :: rest =>
      match lastDotSuffix rest with
      | some s => some s
      | none => if c = '.' then some (c :: rest) else none

/-- Model of `path.extname(name)` on the basename: the suffix from the last dot,
except that a dot in the leading position yields no extension (hidden files),
and the special basename `".."` has none. -/
def jsExtname (name : String) : String :=
  let base := afterLastSlash name.data
  if base = ['.', '.'] then ""
  else
    match base with
    | [] => ""
    | _ :: rest =>
        match lastDotSuffix rest with
        | some s => ⟨s⟩
        | none => ""

/-- Model of `extFromNameOrMime(name, mime)`: `path.extname(name)` with the leading
dot stripped, defaulting to `"bin"`; the mime argument is unused. -/
def extFromNameOrMime (name : String) : String :=
  let ext : List Char :=
    match (jsExtname name).data with
    | '.' :: rest => rest
    | other => other
  if ext = [] then "bin" else ⟨ext⟩

/-- Model of `replace(/\/+/g, "/")`: collapse every run of slashes to one. -/
def collapseSlashes : List Char → List Char
  | [] => []
  | [c] => [c]
  | c1 :: c2 :: rest =>
      if c1 = '/' ∧ c2 = '/' then collapseSlashes (c2 :: rest)
      else c1 :: collapseSlashes (c2 :: rest)

/-- The `{key, hash}` pair returned by `buildImmutableKey`. -/
structure ImmutableKey where
  key : String
  hash : String
deriving DecidableEq, Repr

/-- Model of `buildImmutableKey({uploadPath, filename, mime, data, useShort})`:
SHA-256 hex of the data, extension from the filename, first 20 hex characters
when `useShort`, and `uploadPath/<hashPart>.<ext>` with slash runs
collapsed. -/
def buildImmutableKey (H : List Nat → List Nat) (filename : String)
    (data : List Nat) (uploadPath : String := "assets")
    (useShort : Bool := true) : ImmutableKey :=
  let hash := sha256Hex H data
  let ext := extFromNameOrMime filename
  let hashPart := if useShort then shortHash hash 20 else hash
  let key : String := ⟨collapseSlashes (uploadPath ++ "/" ++ hashPart ++ "." ++ ext).data⟩
  ⟨key, hash⟩

/-- Model of `computeSRI(data, algo)`: `` `${algo}-${digest}` `` with the digest
base64-encoded; the hash for the requested algorithm is the parameter `H`.
All three accepted container types feed the same bytes to the hash, so the
byte list is the single input. -/
def computeSRI (H : List Nat → List Nat) (data : List Nat)
    (algo : String := "sha256") : String :=
  algo ++ "-" ++ (⟨b64EncodeBytes (H data)⟩ : String)

/-! ## `src/utils/validate.ts` -/

/-- A character of the regex class `[A-Za-z0-9+/=]`. -/
def isB64RegexChar (c : Char) : Bool :=
  c ∈ b64Alphabet ∨ c = '='

/-- The test `/^(sha(256|384|512))-[A-Za-z0-9+/=]+$/` on the character
list of the candidate tag. -/
def sriShapeOkChars : List Char → Bool
  | 's' :: 'h' :: 'a' :: a1 :: a2 :: a3 :: '-' :: rest =>
      ([a1, a2, a3] = ['2', '5', '6'] ∨ [a1, a2, a3] = ['3', '8', '4'] ∨
        [a1, a2, a3] = ['5', '1', '2'])
      && rest ≠ [] && rest.all isB64RegexChar
  | _ => false

/-- Model of `assertHasIntegrity(res)`: throw unless `res.integrity` is truthy and
matches the SRI shape regex; otherwise return the result unchanged. -/
def assertHasIntegrity (res : StorageResult) : Except String StorageResult :=
  match res.integrity with
  | some s => if sriShapeOkChars s.data then .ok res
              else .error "StorageResult missing valid integrity (SRI) value"
  | none => .error "StorageResult missing valid integrity (SRI) value"

/-! ## `src/utils/universalIntegrityVerifier.ts` — verification

Each backend round trip is embedded by passing the call's outcome as an
argument; a `none` client in the context means the corresponding entry of
`VerifyContext` was absent. -/

/-- Model of `integrityMatches : boolean | 'unknown'`. -/
inductive TriBool
  | tru
  | fls
  | unknown
deriving DecidableEq, Repr

/-- Model of `VerifyOutcome`. -/
structure VerifyOutcome where
  exists_ : Bool
  integrityMatches : TriBool
  sizeMatches : Option Bool
  details : Option String
deriving DecidableEq, Repr

/-- Outcome of one S3 `HeadObjectCommand`: success carries the custom
`sha256` metadata entry and the reported `ContentLength`; failure carries
`err.$metadata.httpStatusCode` when present. -/
inductive HeadOutcome
  | ok (metaSha256 : Option String) (contentLength : Option Nat)
  | err (httpStatusCode : Option Nat)
deriving DecidableEq, Repr

/-- Combined outcome of the GCS `exists()` / `getMetadata()` pair used by
`verifyFirebase`: either call may throw, `exists()` may report false, and on
success the metadata carries the custom `sha256` field and the size. -/
inductive GcsOutcome
  | existsThrew
  | notExists
  | metadataThrew
  | meta (customSha256 : Option String) (size : Option Nat)
deriving DecidableEq, Repr

/-- Outcome of one Drive `files.get`: success carries the reported size
(`none` for an undefined field), failure carries `err.code`. -/
inductive DriveOutcome
  | ok (size : Option Nat)
  | err (code : Option Nat)
deriving DecidableEq, Repr

/-- Model of `VerifyContext`: one optional client per provider, each paired with the
outcome its metadata call would produce. -/
structure VerifyContext where
  r2 : Option HeadOutcome
  firebase : Option GcsOutcome
  drive : Option DriveOutcome
deriving DecidableEq, Repr

/-- Errors `verifyStorage` can propagate: the `TypeError` from decoding an
`undefined` base64 field, or an unrecognized backend error rethrown by a
provider branch. -/
inductive VerifyErr
  | typeError
  | backendError
deriving DecidableEq, Repr

/-- Model of `verifyR2`: missing client is a non-throwing outcome; a HEAD success
reports existence, compares the stored `sha256` metadata against the expected
hex when one was supplied, and compares `ContentLength` against the expected
size when one was supplied; 403/404 become `exists:false`; any other error —
including one with no usable status code — is rethrown. -/
def verifyR2 (r2 : Option HeadOutcome) (expectedSha256Hex : Option String)
    (expectedSize : Option Nat) : Except VerifyErr VerifyOutcome :=
  match r2 with
  | none => .ok ⟨false, .unknown, none, some "Missing S3 client"⟩
  | some (.ok storedSha contentLength) =>
      let sizeMatches := expectedSize.map fun sz => decide (contentLength = some sz)
      match expectedSha256Hex with
      | none => .ok ⟨true, .unknown, sizeMatches, none⟩
      | some exp =>
          .ok ⟨true, if storedSha = some exp then .tru else .fls, sizeMatches, none⟩
  | some (.err status) =>
      match status with
      | some code =>
          if code = 403 ∨ code = 404 then .ok ⟨false, .unknown, none, none⟩
          else .error .backendError
      | none => .error .backendError

/-- Model of `verifyFirebase`: missing client is a non-throwing outcome; errors from
`exists()` or `getMetadata()` propagate; `exists() = false` short-circuits;
otherwise the custom `sha256` metadata (when truthy) is compared against the
expected hex, and `Number(meta.size)` against the expected size. -/
def verifyFirebase (gcs : Option GcsOutcome) (expectedSha256Hex : Option String)
    (expectedSize : Option Nat) : Except VerifyErr VerifyOutcome :=
  match gcs with
  | none => .ok ⟨false, .unknown, none, some "Missing GCS client"⟩
  | some .existsThrew => .error .backendError
  | some .notExists => .ok ⟨false, .unknown, none, none⟩
  | some .metadataThrew => .error .backendError
  | some (.meta customSha size) =>
      let sizeMatches := expectedSize.map fun sz => decide (size = some sz)
      match expectedSha256Hex with
      | none => .ok ⟨true, .unknown, sizeMatches, none⟩
      | some exp =>
          if customSha = none ∨ customSha = some "" then
            .ok ⟨true, .unknown, sizeMatches, some "No sha256 custom metadata present"⟩
          else
            .ok ⟨true, if customSha = some exp then .tru else .fls, sizeMatches, none⟩

/-- Model of `verifyDrive`: missing client is a non-throwing outcome; a successful
`files.get` reports existence with `integrityMatches` always `'unknown'` and
`Number(size || 0)` compared against the expected size; `err.code` 404/403
becomes `exists:false`; any other error is rethrown. -/
def verifyDrive (drive : Option DriveOutcome) (expectedSize : Option Nat) :
    Except VerifyErr VerifyOutcome :=
  match drive with
  | none => .ok ⟨false, .unknown, none, some "Missing Drive client"⟩
  | some (.ok size) =>
      .ok ⟨true, .unknown, expectedSize.map fun sz => decide (size.getD 0 = sz), none⟩
  | some (.err code) =>
      if code = some 404 ∨ code = some 403 then .ok ⟨false, .unknown, none, none⟩
      else .error .backendError

/-- The argument `resultOrLocator`: a full Storage Result contributes its
`locator`, `integrity` and `sizeBytes`; a bare locator contributes only its
own provider-tagged fields (`integrity`/`sizeBytes` absent).  When a result
has no `locator`, the result object itself is used as the locator and the
dispatch reads its optional `provider` field. -/
structure VerifyInput where
  locator : Option StorageLocator
  provider : Option Provider
  integrity : Option String
  sizeBytes : Option Nat
deriving DecidableEq, Repr

/-- The provider the `switch` dispatches on:
`((resultOrLocator).locator ?? resultOrLocator).provider`. -/
def effectiveProvider (input : VerifyInput) : Option Provider :=
  match input.locator with
  | some l => some l.provider
  | none => input.provider

/-- Model of `verifyStorage`: when `integrity` is truthy, decode it via `parseSRI` +
`base64ToHex` into the expected hex (throwing the `Buffer.from(undefined)`
`TypeError` when the tag has no dash) and take `sizeBytes` as the expected
size; otherwise both expectations stay undefined.  Then dispatch on the
effective provider, an unknown provider yielding a non-throwing outcome. -/
def verifyStorage (input : VerifyInput) (ctx : VerifyContext) :
    Except VerifyErr VerifyOutcome :=
  let dispatch (expectedSha256Hex : Option String) (expectedSize : Option Nat) :
      Except VerifyErr VerifyOutcome :=
    match effectiveProvider input with
    | some .r2 => verifyR2 ctx.r2 expectedSha256Hex expectedSize
    | some .firebase => verifyFirebase ctx.firebase expectedSha256Hex expectedSize
    | some .drive => verifyDrive ctx.drive expectedSize
    | none => .ok ⟨false, .unknown, none, some "Unknown provider"⟩
  match input.integrity with
  | some s =>
      if s = "" then dispatch none none
      else
        match afterFirstDash s.data with
        | none => .error .typeError
        | some b64 => dispatch (some (base64ToHex ⟨b64⟩)) input.sizeBytes
  | none => dispatch none none

/-! ## `src/utils/universalIntegrityVerifier.ts` — deletion

The backend delete primitives live in the third-party clients; they are
embedded with their documented boundary semantics over a world recording
which objects currently exist. -/

/-- Errors of the deletion path. -/
inductive DeleteErr
  | unknownProvider
  | missingClient
  | backend (code : Option Nat)
deriving DecidableEq, Repr

/-- Which objects the three backends currently hold (for the one locator
under consideration). -/
structure DeleteWorld where
  r2ObjectExists : Bool
  firebaseObjectExists : Bool
  driveFileExists : Bool
deriving DecidableEq, Repr

/-- Model of `DeleteContext`: which clients the caller supplied. -/
structure DeleteContext where
  r2 : Bool
  firebase : Bool
  drive : Bool
deriving DecidableEq, Repr

/-- Boundary semantics of S3/R2 `DeleteObjectCommand`: the delete is
idempotent at the API level — deleting an absent key still returns success
(HTTP 204), so the call never reports not-found. -/
def s3DeleteObject (_objectExists : Bool) : Except DeleteErr Unit := .ok ()

/-- Boundary semantics of GCS `File.delete({ignoreNotFound})`: with the flag
set the not-found error is suppressed inside the client; without it, deleting
an absent object fails with a 404 error. -/
def gcsFileDelete (objectExists ignoreNotFound : Bool) : Except DeleteErr Unit :=
  if objectExists ∨ ignoreNotFound then .ok () else .error (.backend (some 404))

/-- Boundary semantics of Drive `files.delete`: deleting a missing file fails
with `err.code = 404`. -/
def driveFilesDelete (fileExists : Bool) : Except DeleteErr Unit :=
  if fileExists then .ok () else .error (.backend (some 404))

/-- Model of `deleteR2`: throw when the client is missing, otherwise a plain
`DeleteObject` with no error handling of its own. -/
def deleteR2 (clientPresent objectExists : Bool) : Except DeleteErr Unit :=
  if clientPresent then s3DeleteObject objectExists else .error .missingClient

/-- Model of `deleteFirebase`: throw when the client is missing, otherwise
`file.delete({ ignoreNotFound: true })`. -/
def deleteFirebase (clientPresent objectExists : Bool) : Except DeleteErr Unit :=
  if clientPresent then gcsFileDelete objectExists true else .error .missingClient

/-- Model of `deleteDrive`: throw when the client is missing, otherwise
`files.delete` with `err.code === 404` swallowed and anything else
rethrown. -/
def deleteDrive (clientPresent fileExists : Bool) : Except DeleteErr Unit :=
  if clientPresent then
    match driveFilesDelete fileExists with
    | .ok _ => .ok ()
    | .error (.backend (some 404)) => .ok ()
    | .error e => .error e
  else .error .missingClient

/-- Model of `deleteFileFromStorage`: the same `locator ?? resultOrLocator` coalescing
as verification, then dispatch by provider; an unknown provider throws. -/
def deleteFileFromStorage (input : VerifyInput) (ctx : DeleteContext)
    (w : DeleteWorld) : Except DeleteErr Unit :=
  match effectiveProvider input with
  | some .r2 => deleteR2 ctx.r2 w.r2ObjectExists
  | some .firebase => deleteFirebase ctx.firebase w.firebaseObjectExists
  | some .drive => deleteDrive ctx.drive w.driveFileExists
  | none => .error .unknownProvider

/-! ## `src/utils/baseStorage.ts` -/

/-- Model of `BaseStorageService.finalizeResult`: every orchestrator passes an
already-computed `integrity` and an empty options object, so the
`data`-fallback branch reduces to throwing when integrity is absent;
otherwise the result goes through `assertHasIntegrity`. -/
def finalizeResult (res : StorageResult) : Except String StorageResult :=
  match res.integrity with
  | none => .error "Integrity missing and no data provided to compute it"
  | some _ => assertHasIntegrity res

/-! ## Upload orchestrators -/

/-- The caller-supplied file of `UploadParams`. -/
structure UploadFile where
  name : String
  mimetype : String
  data : List Nat
deriving DecidableEq, Repr

/-- Model of `UploadParams` (the Drive-specific `parentPathIds` included). -/
structure UploadParams where
  file : UploadFile
  uploadPath : Option String
  parentPathIds : Option (List String)
  cacheControl : Option String
deriving DecidableEq, Repr

/-- Outcome of the conditional `PutObjectCommand`. -/
inductive PutOutcome
  | ok
  | err (httpStatusCode : Option Nat)
deriving DecidableEq, Repr

/-- The distinct fatal errors an upload can surface. -/
inductive UploadErr
  | headError
  | putError
  | sriDecodeThrew
  | integrityMissing
  | verifyThrew
  | notFoundAfterUpload
  | shaMismatch
  | sizeMismatch
  | makePublicError
deriving DecidableEq, Repr

/-- R2 environment values read in `init()`. -/
structure R2Env where
  bucket : String
  cdnBase : String
deriving DecidableEq, Repr

/-- The probe step of `CloudFlareR2StorageService.uploadFile`: HEAD the
derived key; on success the object counts as present only when the stored
`sha256` metadata is truthy and equals the freshly computed content hex; a
caught error leaves `exists = false` unless it carries a status code outside
{403, 404}, which is rethrown (a status-less error is swallowed). -/
def r2ComputeExists (headResp : HeadOutcome) (contentSha256Hex : String) :
    Except UploadErr Bool :=
  match headResp with
  | .ok storedSha _ =>
      .ok (match storedSha with
           | some s => s ≠ "" && s = contentSha256Hex
           | none => false)
  | .err status =>
      match status with
      | some code =>
          if code = 403 ∨ code = 404 then .ok false else .error .headError
      | none => .ok false

/-- The conditional-write step: a 412 precondition failure (another writer
won the race) is folded into success; any other error is rethrown. -/
def r2PutStep (putResp : PutOutcome) : Except UploadErr Unit :=
  match putResp with
  | .ok => .ok ()
  | .err (some 412) => .ok ()
  | .err _ => .error .putError

/-- The Storage Result the R2 orchestrator builds before verification. -/
def r2BuildResult (env : R2Env) (key integrity : String) (size : Nat) :
    StorageResult :=
  { url := env.cdnBase ++ "/" ++ key
    downloadUrl := env.cdnBase ++ "/" ++ key
    key := some key
    integrity := some integrity
    sizeBytes := some size
    locator := some (.r2 env.bucket key)
    provider := some .r2 }

/-- Steps 3 of `uploadFile`: finalize the result, run `verifyStorage` with
only the R2 client supplied, and require existence, no digest mismatch and no
size mismatch before returning the result. -/
def r2Finalize (env : R2Env) (key integrity : String) (size : Nat)
    (verifyHead : HeadOutcome) : Except UploadErr StorageResult :=
  match finalizeResult (r2BuildResult env key integrity size) with
  | .error _ => .error .integrityMissing
  | .ok result =>
      match verifyStorage ⟨result.locator, result.provider, result.integrity,
          result.sizeBytes⟩ ⟨some verifyHead, none, none⟩ with
      | .error _ => .error .verifyThrew
      | .ok o =>
          if o.exists_ = false then .error .notFoundAfterUpload
          else if o.integrityMatches = .fls then .error .shaMismatch
          else if o.sizeMatches = some false then .error .sizeMismatch
          else .ok result

/-- Model of `CloudFlareR2StorageService.uploadFile`, with the outcomes of the three
network round trips (probe HEAD, conditional PUT, verification HEAD) passed
explicitly and `ts` standing for `Date.now()` in the default upload path.
The second component records whether the PUT was attempted. -/
def r2UploadFile (H : List Nat → List Nat) (env : R2Env)
    (params : UploadParams) (ts : Nat) (headResp : HeadOutcome)
    (putResp : PutOutcome) (verifyHead : HeadOutcome) :
    Except UploadErr StorageResult × Bool :=
  let uploadPath := params.uploadPath.getD ("OBJ_" ++ toString ts)
  let key := (buildImmutableKey H params.file.name params.file.data uploadPath true).key
  let integrity := computeSRI H params.file.data "sha256"
  match sriToHex integrity with
  | .error _ => (.error .sriDecodeThrew, false)
  | .ok contentSha256Hex =>
      match r2ComputeExists headResp contentSha256Hex with
      | .error e => (.error e, false)
      | .ok present =>
          if present then
            (r2Finalize env key integrity params.file.data.length verifyHead, false)
          else
            match r2PutStep putResp with
            | .error e => (.error e, true)
            | .ok _ =>
                (r2Finalize env key integrity params.file.data.length verifyHead, true)

/-- Outcome of the GCS `file.save` call. -/
inductive SaveOutcome
  | ok
  | err
deriving DecidableEq, Repr

/-- Outcome of the `makePublic()` call. -/
inductive PublicOutcome
  | ok
  | err
deriving DecidableEq, Repr

/-- The Storage Result the Firebase orchestrator builds: its `key` is
`hashString(file.name)` — the MD5 of the filename, not a content digest. -/
def firebaseBuildResult (M : String → String) (bucketName publicUrl
    filePath integrity : String) (name : String) (size : Nat) : StorageResult :=
  { url := publicUrl
    downloadUrl := publicUrl
    key := some (hashString M name)
    integrity := some integrity
    sizeBytes := some size
    locator := some (.firebase bucketName filePath)
    provider := some .firebase }

/-- Model of `FirebaseStorageService.uploadFile`: compute the object path and the
content SRI, then save the bytes unconditionally — there is no existence
probe and no deduplication — make the object public, build the result and
run the universal verification, requiring existence, no digest mismatch and
no size mismatch.  The second component records whether the save (the write)
was attempted, which is on every control path. -/
def firebaseUploadFile (H : List Nat → List Nat) (M : String → String)
    (bucketName : String) (params : UploadParams) (ts : Nat)
    (saveResp : SaveOutcome) (publicResp : PublicOutcome) (publicUrl : String)
    (gcsResp : GcsOutcome) : Except UploadErr StorageResult × Bool :=
  let filePath := params.uploadPath.getD ("STR_" ++ toString ts) ++ "/" ++ params.file.name
  let integrity := computeSRI H params.file.data "sha256"
  match saveResp with
  | .err => (.error .putError, true)
  | .ok =>
      match publicResp with
      | .err => (.error .makePublicError, true)
      | .ok =>
          match finalizeResult (firebaseBuildResult M bucketName publicUrl
              filePath integrity params.file.name params.file.data.length) with
          | .error _ => (.error .integrityMissing, true)
          | .ok result =>
              match verifyStorage ⟨result.locator, result.provider,
                  result.integrity, result.sizeBytes⟩ ⟨none, some gcsResp, none⟩ with
              | .error _ => (.error .verifyThrew, true)
              | .ok o =>
                  if o.exists_ = false then (.error .notFoundAfterUpload, true)
                  else if o.integrityMatches = .fls then (.error .shaMismatch, true)
                  else if o.sizeMatches = some false then (.error .sizeMismatch, true)
                  else (.ok result, true)

/-- The links `generatePublicUrlForDrive` returns, or `none` when the
permission grant or link fetch failed (the method swallows its errors). -/
structure DriveLinks where
  webContentLink : Option String
  publicUrl : String
deriving DecidableEq, Repr

/-- The Storage Result the Drive orchestrator builds: its `key` is
`hashString(file.name)`, the MD5 of the filename. -/
def driveBuildResult (M : String → String) (links : Option DriveLinks)
    (fileId integrity : String) (shared : Bool) (name : String) (size : Nat) :
    StorageResult :=
  { url := (links.map (·.publicUrl)).getD ""
    downloadUrl := ((links.bind (·.webContentLink))).getD ""
    key := some (hashString M name)
    integrity := some integrity
    sizeBytes := some size
    locator := some (.drive fileId shared)
    provider := some .drive }

/-- Model of `GoogleDriveStorageService.uploadFile`: create the file unconditionally —
there is no existence probe and no deduplication — then grant the public
permission and fetch links (failures there yield `null` links), build the
result and run the universal verification, requiring existence and no size
mismatch (Drive has no comparable digest).  The second component records
whether `files.create` (the write) was attempted, which is on every control
path. -/
def driveUploadFile (H : List Nat → List Nat) (M : String → String)
    (params : UploadParams) (shared : Bool)
    (createResp : Except Unit String) (links : Option DriveLinks)
    (driveGetResp : DriveOutcome) : Except UploadErr StorageResult × Bool :=
  match createResp with
  | .error _ => (.error .putError, true)
  | .ok fileId =>
      let integrity := computeSRI H params.file.data "sha256"
      match finalizeResult (driveBuildResult M links fileId integrity shared
          params.file.name params.file.data.length) with
      | .error _ => (.error .integrityMissing, true)
      | .ok result =>
          match verifyStorage ⟨result.locator, result.provider,
              result.integrity, result.sizeBytes⟩ ⟨none, none, some driveGetResp⟩ with
          | .error _ => (.error .verifyThrew, true)
          | .ok o =>
              if o.exists_ = false then (.error .notFoundAfterUpload, true)
              else if o.sizeMatches = some false then (.error .sizeMismatch, true)
              else (.ok result, true)

/-! ## Codec lemmas -/

/-- Decoding inverts encoding on each 6-bit group. -/
theorem b64DecChar_encChar (x : Nat) (hx : x < 64) :
    b64DecChar (b64EncChar x) = some x := by
  have h : ∀ y : Fin 64, b64DecChar (b64EncChar y.val) = some y.val := by decide
  exact h ⟨x, hx⟩

/-- The padding character is skipped by the decoder. -/
theorem b64DecChar_pad : b64DecChar '=' = none := by decide

/-- Base64 decoding inverts base64 encoding on byte lists. -/
theorem b64_decode_encode : ∀ bs : List Nat, (∀ b ∈ bs, b < 256) →
    b64DecodeSextets ((b64EncodeBytes bs).filterMap b64DecChar) = bs
  | [], _ => by simp [b64EncodeBytes, b64DecodeSextets]
  | [b1], h => by
      have hb1 : b1 < 256 := h b1 (by simp)
      have e1 : b64DecChar (b64EncChar (b1 / 4)) = some (b1 / 4) :=
        b64DecChar_encChar _ (by omega)
      have e2 : b64DecChar (b64EncChar (b1 % 4 * 16)) = some (b1 % 4 * 16) :=
        b64DecChar_encChar _ (by omega)
      simp [b64EncodeBytes, List.filterMap_cons, e1, e2, b64DecChar_pad,
        b64DecodeSextets]
      omega
  | [b1, b2], h => by
      have hb1 : b1 < 256 := h b1 (by simp)
      have hb2 : b2 < 256 := h b2 (by simp)
      have e1 : b64DecChar (b64EncChar (b1 / 4)) = some (b1 / 4) :=
        b64DecChar_encChar _ (by omega)
      have e2 : b64DecChar (b64EncChar (b1 % 4 * 16 + b2 / 16)) =
          some (b1 % 4 * 16 + b2 / 16) := b64DecChar_encChar _ (by omega)
      have e3 : b64DecChar (b64EncChar (b2 % 16 * 4)) = some (b2 % 16 * 4) :=
        b64DecChar_encChar _ (by omega)
      simp [b64EncodeBytes, List.filterMap_cons, e1, e2, e3, b64DecChar_pad,
        b64DecodeSextets]
      omega
  | b1 :: b2 :: b3 :: rest, h => by
      have hb1 : b1 < 256 := h b1 (by simp)
      have hb2 : b2 < 256 := h b2 (by simp)
      have hb3 : b3 < 256 := h b3 (by simp)
      have ih := b64_decode_encode rest (fun b hb => h b (by simp [hb]))
      have e1 : b64DecChar (b64EncChar (b1 / 4)) = some (b1 / 4) :=
        b64DecChar_encChar _ (by omega)
      have e2 : b64DecChar (b64EncChar (b1 % 4 * 16 + b2 / 16)) =
          some (b1 % 4 * 16 + b2 / 16) := b64DecChar_encChar _ (by omega)
      have e3 : b64DecChar (b64EncChar (b2 % 16 * 4 + b3 / 64)) =
          some (b2 % 16 * 4 + b3 / 64) := b64DecChar_encChar _ (by omega)
      have e4 : b64DecChar (b64EncChar (b3 % 64)) = some (b3 % 64) :=
        b64DecChar_encChar _ (by omega)
      simp [b64EncodeBytes, List.filterMap_cons, e1, e2, e3, e4,
        b64DecodeSextets, ih]
      omega

/-- Encoded 6-bit groups never produce the SRI separator `'-'`. -/
theorem b64EncChar_ne_dash (x : Nat) (hx : x < 64) : b64EncChar x ≠ '-' := by
  have h : ∀ y : Fin 64, b64EncChar y.val ≠ '-' := by decide
  exact h ⟨x, hx⟩

/-- Base64 output of byte lists contains no `'-'`. -/
theorem dash_not_mem_encode : ∀ bs : List Nat, (∀ b ∈ bs, b < 256) →
    '-' ∉ b64EncodeBytes bs
  | [], _ => by simp [b64EncodeBytes]
  | [b1], h => by
      have hb1 : b1 < 256 := h b1 (by simp)
      simp only [b64EncodeBytes, List.mem_cons, List.not_mem_nil, or_false]
      push_neg
      refine ⟨?_, ?_, by decide, by decide⟩ <;>
        exact fun hc => b64EncChar_ne_dash _ (by omega) hc.symm
  | [b1, b2], h => by
      have hb1 : b1 < 256 := h b1 (by simp)
      have hb2 : b2 < 256 := h b2 (by simp)
      simp only [b64EncodeBytes, List.mem_cons, List.not_mem_nil, or_false]
      push_neg
      refine ⟨?_, ?_, ?_, by decide⟩ <;>
        exact fun hc => b64EncChar_ne_dash _ (by omega) hc.symm
  | b1 :: b2 :: b3 :: rest, h => by
      have hb1 : b1 < 256 := h b1 (by simp)
      have hb2 : b2 < 256 := h b2 (by simp)
      have hb3 : b3 < 256 := h b3 (by simp)
      have ih := dash_not_mem_encode rest (fun b hb => h b (by simp [hb]))
      simp only [b64EncodeBytes, List.mem_cons, not_or]
      refine ⟨?_, ?_, ?_, ?_, ih⟩ <;>
        exact fun hc => b64EncChar_ne_dash _ (by omega) hc.symm

/-- Applying `takeUntilDash` to a dash-free list returns it unchanged. -/
theorem takeUntilDash_of_not_mem : ∀ cs : List Char, '-' ∉ cs →
    takeUntilDash cs = cs
  | [], _ => rfl
  | c :: rest, h => by
      have hc : c ≠ '-' := fun hc => h (by simp [hc])
      simp [takeUntilDash, hc, takeUntilDash_of_not_mem rest (fun hm => h (by simp [hm]))]

/-- Splitting at the first dash of `l₁ ++ '-' :: l₂` with `l₁` dash-free
yields the dash-free part of `l₂`. -/
theorem afterFirstDash_append : ∀ l₁ l₂ : List Char, '-' ∉ l₁ →
    afterFirstDash (l₁ ++ '-' :: l₂) = some (takeUntilDash l₂)
  | [], l₂, _ => by simp [afterFirstDash]
  | c :: rest, l₂, h => by
      have hc : c ≠ '-' := fun hc => h (by simp [hc])
      simp [afterFirstDash, hc,
        afterFirstDash_append rest l₂ (fun hm => h (by simp [hm]))]

/-- Hex encoding doubles the length. -/
theorem bytesToHex_length : ∀ bs : List Nat, (bytesToHex bs).length = 2 * bs.length
  | [] => rfl
  | b :: rest => by
      have ih := bytesToHex_length rest
      simp [bytesToHex, String.length, hexEncodeByte] at ih ⊢
      omega

/-- Every character in the flattened hex encoding of genuine bytes is a
lowercase hex digit. -/
theorem hexFlatten_mem : ∀ bs : List Nat, (∀ b ∈ bs, b < 256) →
    ∀ c ∈ (bs.map hexEncodeByte).flatten, c ∈ hexDigits
  | [], _ => by simp
  | b :: rest, h => by
      have hb : b < 256 := h b (by simp)
      have ih := hexFlatten_mem rest (fun x hx => h x (by simp [hx]))
      have hget : ∀ n : Nat, n < 16 → hexDigits.getD n '0' ∈ hexDigits := by
        have hfin : ∀ y : Fin 16, hexDigits.getD y.val '0' ∈ hexDigits := by decide
        exact fun n hn => hfin ⟨n, hn⟩
      intro c hc
      rw [List.map_cons, List.flatten_cons] at hc
      rcases List.mem_append.mp hc with hmem | hmem
      · simp only [hexEncodeByte, List.mem_cons, List.not_mem_nil, or_false] at hmem
        rcases hmem with hc1 | hc1 <;> (subst hc1; exact hget _ (by omega))
      · exact ih c hmem

/-- Every character of the hex encoding of genuine bytes is a lowercase hex
digit. -/
theorem bytesToHex_mem_hexDigits (bs : List Nat) (h : ∀ b ∈ bs, b < 256) :
    ∀ c ∈ (bytesToHex bs).data, c ∈ hexDigits := by
  have hdata : (bytesToHex bs).data = (bs.map hexEncodeByte).flatten := rfl
  rw [hdata]
  exact hexFlatten_mem bs h

/-- The core codec round trip shared by several claims:
`sriToHex (computeSRI data) = hex of the digest`. -/
theorem sriToHex_computeSRI_eq (H : List Nat → List Nat) (data : List Nat)
    (hbytes : ∀ b ∈ H data, b < 256) :
    sriToHex (computeSRI H data "sha256") = .ok (bytesToHex (H data)) := by
  have hdata : (computeSRI H data "sha256").data =
      ['s', 'h', 'a', '2', '5', '6', '-'] ++ b64EncodeBytes (H data) := by
    simp [computeSRI]
  have hnodash : '-' ∉ b64EncodeBytes (H data) := dash_not_mem_encode _ hbytes
  have hsplit : afterFirstDash (computeSRI H data "sha256").data =
      some (b64EncodeBytes (H data)) := by
    rw [hdata]
    have : (['s', 'h', 'a', '2', '5', '6', '-'] : List Char) ++
        b64EncodeBytes (H data) =
        ['s', 'h', 'a', '2', '5', '6'] ++ '-' :: b64EncodeBytes (H data) := by simp
    rw [this, afterFirstDash_append _ _ (by decide),
      takeUntilDash_of_not_mem _ hnodash]
  simp [sriToHex, hsplit, jsBase64Decode, b64_decode_encode _ hbytes]

/-- The split `afterFirstDash` fails exactly on dash-free input. -/
theorem afterFirstDash_eq_none : ∀ cs : List Char,
    afterFirstDash cs = none ↔ '-' ∉ cs
  | [] => by simp [afterFirstDash]
  | c :: rest => by
      by_cases hc : c = '-'
      · subst hc
        simp [afterFirstDash]
      · simp [afterFirstDash, hc, afterFirstDash_eq_none rest, Ne.symm hc]

/-- The validator `finalizeResult` never alters the result it validates. -/
theorem finalizeResult_eq (r r' : StorageResult)
    (h : finalizeResult r = .ok r') : r' = r := by
  unfold finalizeResult assertHasIntegrity at h
  rcases hi : r.integrity with _ | s <;> rw [hi] at h
  · simp at h
  · by_cases hs : sriShapeOkChars s.data = true <;> simp [hs] at h
    exact h.symm

/-! ## Claims -/

/-- Claim **C3.** For every byte content `b`, decoding the digest tag produced by
`digest(b, "sha256")` via `decodeToHex` yields exactly the independently
computed SHA-256 hex digest of `b`:
`sriToHex (computeSRI b "sha256")` equals the hex encoding of the digest
bytes, a 64-character string of lowercase hex digits.  The SHA-256 digest
function `H` (Node `crypto`) is abstract, constrained only to its documented
output format: 32 bytes. -/
theorem c3_digest_tag_roundtrip (H : List Nat → List Nat) (data : List Nat)
    (hlen : (H data).length = 32) (hbytes : ∀ b ∈ H data, b < 256) :
    sriToHex (computeSRI H data "sha256") = .ok (sha256Hex H data) ∧
    (sha256Hex H data).length = 64 ∧
    ∀ c ∈ (sha256Hex H data).data, c ∈ hexDigits := by
  refine ⟨sriToHex_computeSRI_eq H data hbytes, ?_, ?_⟩
  · rw [show sha256Hex H data = bytesToHex (H data) from rfl,
      bytesToHex_length, hlen]
  · exact bytesToHex_mem_hexDigits _ hbytes

/-- Claim **C3 witness.** The round trip evaluated at concrete content `[104, 105]`
with a concrete 32-byte digest function. -/
theorem c3_digest_tag_roundtrip_witness :
    sriToHex (computeSRI (fun _ => List.replicate 32 0) [104, 105] "sha256") =
      .ok (sha256Hex (fun _ => List.replicate 32 0) [104, 105]) ∧
    (sha256Hex (fun _ : List Nat => List.replicate 32 0) [104, 105]).length = 64 ∧
    ∀ c ∈ (sha256Hex (fun _ : List Nat => List.replicate 32 0) [104, 105]).data,
      c ∈ hexDigits :=
  c3_digest_tag_roundtrip (fun _ => List.replicate 32 0) [104, 105]
    (by decide) (by decide)

/-- Claim **C4 counterexample.** The tag `"sha256-AAAA"` does not satisfy the
claimed length invariant — its base64 part decodes to 3 bytes, not the 32
bytes of a SHA-256 digest — yet `sriToHex` raises no error at all: it
returns the hex value `"000000"`. -/
theorem c4_malformed_tag_counterexample :
    (jsBase64Decode "AAAA".data).length = 3 ∧
    sriToHex "sha256-AAAA" = .ok "000000" := by decide

/-- Claim **C4 (amended).** Digest-tag decoding performs no validation of the
decoded byte length and raises no `MalformedDigestTag` error: `sriToHex`
returns a hex value for every tag containing a dash, whatever the decoded
length, and errors (with the generic `TypeError` of
`Buffer.from(undefined)`) exactly when the tag contains no dash.  The only
shape check in the code base is `assertHasIntegrity`, and even it accepts a
well-shaped tag of the wrong decoded length. -/
theorem c4_no_length_validation :
    (∀ tag : String, (∃ v, sriToHex tag = .ok v) ↔ '-' ∈ tag.data) ∧
    (∀ res : StorageResult, res.integrity = some "sha256-AAAA" →
      assertHasIntegrity res = .ok res) := by
  constructor
  · intro tag
    unfold sriToHex
    rcases hd : afterFirstDash tag.data with _ | b64
    · simp only [hd]
      have hmem := (afterFirstDash_eq_none tag.data).mp hd
      simp [hmem]
    · have hmem : '-' ∈ tag.data := by
        by_contra hnot
        rw [(afterFirstDash_eq_none tag.data).mpr hnot] at hd
        exact Option.noConfusion hd
      simp [hd, hmem]
  · intro res h
    unfold assertHasIntegrity
    rw [h]
    simp [show sriShapeOkChars "sha256-AAAA".data = true from by decide]

/-- Claim **C4 amended witness.** The no-dash/with-dash dichotomy and the
length-blind validator evaluated at `"sha256-AAAA"`. -/
theorem c4_no_length_validation_witness :
    (∃ v, sriToHex "sha256-AAAA" = .ok v) ∧
    assertHasIntegrity ⟨"u", "u", some "k", some "sha256-AAAA", none, none, none⟩ =
      .ok ⟨"u", "u", some "k", some "sha256-AAAA", none, none, none⟩ :=
  ⟨(c4_no_length_validation.1 "sha256-AAAA").mpr (by decide),
   c4_no_length_validation.2 _ rfl⟩

/-- Claim **C5 counterexample.** With a fixed digest function, fixed content and
fixed path prefix, the filenames `"a.png"` and `"a.txt"` produce different
keys: the filename's extension flows into `buildImmutableKey`'s result, so
filenames do influence the derived key. -/
theorem c5_filename_influences_key_counterexample :
    (buildImmutableKey (fun _ => List.replicate 32 0) "a.png" [1] "assets" true).key ≠
    (buildImmutableKey (fun _ => List.replicate 32 0) "a.txt" [1] "assets" true).key := by
  decide

/-- Claim **C5 (amended).** The derived key is a pure function of the path prefix,
the content bytes and the filename's extracted extension: two filenames with
equal extensions always yield the same key, and — with an explicit path
prefix supplied — the call time `Date.now()` never influences an R2 upload
at all (the timestamp only ever enters through the default path prefix). -/
theorem c5_key_depends_only_on_extension :
    (∀ (H : List Nat → List Nat) (uploadPath : String) (data : List Nat)
        (useShort : Bool) (f₁ f₂ : String),
      extFromNameOrMime f₁ = extFromNameOrMime f₂ →
      (buildImmutableKey H f₁ data uploadPath useShort).key =
        (buildImmutableKey H f₂ data uploadPath useShort).key) ∧
    (∀ (H : List Nat → List Nat) (env : R2Env) (params : UploadParams)
        (ts₁ ts₂ : Nat) (h : HeadOutcome) (p : PutOutcome) (v : HeadOutcome),
      params.uploadPath.isSome = true →
      r2UploadFile H env params ts₁ h p v = r2UploadFile H env params ts₂ h p v) := by
  constructor
  · intro H uploadPath data useShort f₁ f₂ hext
    simp [buildImmutableKey, hext]
  · intro H env params ts₁ ts₂ h p v hsome
    rcases hup : params.uploadPath with _ | pp
    · rw [hup] at hsome
      exact absurd hsome (by simp)
    · simp [r2UploadFile, hup]

/-- Claim **C5 amended witness.** Extension-equal filenames `"x.png"` / `"y.png"`
give one key; two different timestamps give one identical R2 run. -/
theorem c5_key_depends_only_on_extension_witness :
    (buildImmutableKey (fun _ => List.replicate 32 0) "x.png" [1] "assets" true).key =
      (buildImmutableKey (fun _ => List.replicate 32 0) "y.png" [1] "assets" true).key ∧
    r2UploadFile (fun _ => List.replicate 32 0) ⟨"b", "cdn"⟩
        ⟨⟨"a", "m", [1]⟩, some "p", none, none⟩ 3 (.err (some 404)) .ok
        (.ok (some (bytesToHex (List.replicate 32 0))) (some 1)) =
      r2UploadFile (fun _ => List.replicate 32 0) ⟨"b", "cdn"⟩
        ⟨⟨"a", "m", [1]⟩, some "p", none, none⟩ 7 (.err (some 404)) .ok
        (.ok (some (bytesToHex (List.replicate 32 0))) (some 1)) :=
  ⟨c5_key_depends_only_on_extension.1 _ "assets" [1] true "x.png" "y.png" (by decide),
   c5_key_depends_only_on_extension.2 _ ⟨"b", "cdn"⟩ _ 3 7 _ _ _ (by decide)⟩

/-- A successful Firebase upload returns the result built by
`firebaseBuildResult`, whose `key` is the filename hash. -/
theorem firebaseUpload_ok_key (H : List Nat → List Nat) (M : String → String)
    (bucketName : String) (params : UploadParams) (ts : Nat)
    (saveResp : SaveOutcome) (publicResp : PublicOutcome) (publicUrl : String)
    (gcsResp : GcsOutcome) (r : StorageResult) (w : Bool)
    (h : firebaseUploadFile H M bucketName params ts saveResp publicResp
        publicUrl gcsResp = (.ok r, w)) :
    r.key = some (hashString M params.file.name) := by
  unfold firebaseUploadFile at h
  dsimp only at h
  split at h
  · simp at h
  · split at h
    · simp at h
    · split at h
      · simp at h
      · next result heq =>
          have hres := finalizeResult_eq _ _ heq
          split at h
          · simp at h
          · split at h
            · simp at h
            · split at h
              · simp at h
              · split at h
                · simp at h
                · simp only [Prod.mk.injEq, Except.ok.injEq] at h
                  rw [← h.1, hres]
                  rfl

/-- A successful Drive upload returns the result built by
`driveBuildResult`, whose `key` is the filename hash. -/
theorem driveUpload_ok_key (H : List Nat → List Nat) (M : String → String)
    (params : UploadParams) (shared : Bool) (createResp : Except Unit String)
    (links : Option DriveLinks) (driveGetResp : DriveOutcome)
    (r : StorageResult) (w : Bool)
    (h : driveUploadFile H M params shared createResp links driveGetResp =
        (.ok r, w)) :
    r.key = some (hashString M params.file.name) := by
  unfold driveUploadFile at h
  dsimp only at h
  split at h
  · simp at h
  · split at h
    · simp at h
    · next result heq =>
        have hres := finalizeResult_eq _ _ heq
        split at h
        · simp at h
        · split at h
          · simp at h
          · split at h
            · simp at h
            · simp only [Prod.mk.injEq, Except.ok.injEq] at h
              rw [← h.1, hres]
              rfl

/-- A successful R2 upload returns the result built by `r2BuildResult` on
the content-derived key. -/
theorem r2Upload_ok_key (H : List Nat → List Nat) (env : R2Env)
    (params : UploadParams) (ts : Nat) (headResp : HeadOutcome)
    (putResp : PutOutcome) (verifyHead : HeadOutcome) (r : StorageResult)
    (w : Bool)
    (h : r2UploadFile H env params ts headResp putResp verifyHead = (.ok r, w)) :
    r.key = some ((buildImmutableKey H params.file.name params.file.data
      (params.uploadPath.getD ("OBJ_" ++ toString ts)) true).key) := by
  have hfin : ∀ (key integrity : String) (size : Nat),
      r2Finalize env key integrity size verifyHead = .ok r →
      r.key = some key := by
    intro key integrity size hf1
    unfold r2Finalize at hf1
    split at hf1
    · simp at hf1
    · next result heq =>
        have hres := finalizeResult_eq _ _ heq
        split at hf1
        · simp at hf1
        · split at hf1
          · simp at hf1
          · split at hf1
            · simp at hf1
            · split at hf1
              · simp at hf1
              · have hr : result = r := by
                  simpa using hf1
                rw [← hr, hres]
                rfl
  unfold r2UploadFile at h
  dsimp only at h
  rcases hs : sriToHex (computeSRI H params.file.data "sha256") with e | hex
  · simp only [hs] at h
    simp at h
  · simp only [hs] at h
    rcases hx : r2ComputeExists headResp hex with e | present
    · simp only [hx] at h
      simp at h
    · simp only [hx] at h
      cases present
      · simp only [Bool.false_eq_true, if_false] at h
        rcases hput : r2PutStep putResp with e | u
        · simp only [hput] at h
          simp at h
        · simp only [hput] at h
          simp only [Prod.mk.injEq] at h
          exact hfin _ _ _ h.1
      · simp only [if_true] at h
        simp only [Prod.mk.injEq] at h
        exact hfin _ _ _ h.1

/-- Claim **C6 counterexample.** Two Firebase uploads with identical content bytes
`[1]` but different filenames — `"a"` versus `"b"` — both succeed and return
different `key` fields (here with the external MD5 abstracted as the
identity, exhibiting that the key is computed from the filename): the
Firebase orchestrator does not key by content digest. -/
theorem c6_firebase_key_counterexample :
    ((firebaseUploadFile (fun _ => List.replicate 32 0) (fun s => s) "bkt"
        ⟨⟨"a", "m", [1]⟩, some "p", none, none⟩ 0 .ok .ok "u"
        (.meta none (some 1))).1.map StorageResult.key = .ok (some "a")) ∧
    ((firebaseUploadFile (fun _ => List.replicate 32 0) (fun s => s) "bkt"
        ⟨⟨"b", "m", [1]⟩, some "p", none, none⟩ 0 .ok .ok "u"
        (.meta none (some 1))).1.map StorageResult.key = .ok (some "b")) := by
  decide

/-- Claim **C6 (amended).** The Firebase orchestrator's returned `key`, exactly
like the Drive orchestrator's, is `hashString(file.name)` — the MD5 of the
filename, independent of the content bytes; only the R2 orchestrator keys by
content digest (its returned `key` is `buildImmutableKey`'s content-hash
key). -/
theorem c6_key_derivations :
    (∀ (H : List Nat → List Nat) (M : String → String) (b : String)
        (params : UploadParams) (ts : Nat) (s : SaveOutcome)
        (p : PublicOutcome) (u : String) (g : GcsOutcome)
        (r : StorageResult) (w : Bool),
      firebaseUploadFile H M b params ts s p u g = (.ok r, w) →
      r.key = some (hashString M params.file.name)) ∧
    (∀ (H : List Nat → List Nat) (M : String → String) (params : UploadParams)
        (sh : Bool) (cr : Except Unit String) (l : Option DriveLinks)
        (dg : DriveOutcome) (r : StorageResult) (w : Bool),
      driveUploadFile H M params sh cr l dg = (.ok r, w) →
      r.key = some (hashString M params.file.name)) ∧
    (∀ (H : List Nat → List Nat) (env : R2Env) (params : UploadParams)
        (ts : Nat) (hd : HeadOutcome) (pt : PutOutcome) (v : HeadOutcome)
        (r : StorageResult) (w : Bool),
      r2UploadFile H env params ts hd pt v = (.ok r, w) →
      r.key = some ((buildImmutableKey H params.file.name params.file.data
        (params.uploadPath.getD ("OBJ_" ++ toString ts)) true).key)) :=
  ⟨fun H M b params ts s p u g r w h =>
      firebaseUpload_ok_key H M b params ts s p u g r w h,
   fun H M params sh cr l dg r w h =>
      driveUpload_ok_key H M params sh cr l dg r w h,
   fun H env params ts hd pt v r w h =>
      r2Upload_ok_key H env params ts hd pt v r w h⟩

/-- Claim **C6 amended witness.** The three key derivations evaluated on concrete
successful runs. -/
theorem c6_key_derivations_witness :
    (⟨"u", "u", some "a", some (computeSRI (fun _ => List.replicate 32 0) [1] "sha256"),
        some 1, some (.firebase "bkt" "p/a"), some .firebase⟩ : StorageResult).key =
      some (hashString (fun s => s) "a") ∧
    (⟨"pub", "", some "a", some (computeSRI (fun _ => List.replicate 32 0) [1] "sha256"),
        some 1, some (.drive "fid" false), some .drive⟩ : StorageResult).key =
      some (hashString (fun s => s) "a") :=
  ⟨c6_key_derivations.1 (fun _ => List.replicate 32 0) (fun s => s) "bkt"
      ⟨⟨"a", "m", [1]⟩, some "p", none, none⟩ 0 .ok .ok "u" (.meta none (some 1))
      _ true (by decide),
   c6_key_derivations.2.1 (fun _ => List.replicate 32 0) (fun s => s)
      ⟨⟨"a", "m", [1]⟩, some "p", none, none⟩ false (.ok "fid")
      (some ⟨none, "pub"⟩) (.ok (some 1)) _ true (by decide)⟩

/-- Claim **C2 counterexample.** A Firebase upload in a world whose backend
already holds the object with a stored digest equal to the freshly computed
one (the metadata call reports custom `sha256` equal to
`sriToHex (computeSRI ...)`): the upload succeeds, yet the write was still
performed — the Firebase orchestrator has no probe and never skips the
write. -/
theorem c2_probe_skip_counterexample :
    sriToHex (computeSRI (fun _ => List.replicate 32 0) [1] "sha256") =
      .ok (bytesToHex (List.replicate 32 0)) ∧
    (firebaseUploadFile (fun _ => List.replicate 32 0) (fun s => s) "bkt"
        ⟨⟨"a", "m", [1]⟩, some "p", none, none⟩ 0 .ok .ok "u"
        (.meta (some (bytesToHex (List.replicate 32 0))) (some 1))).2 = true ∧
    ((firebaseUploadFile (fun _ => List.replicate 32 0) (fun s => s) "bkt"
        ⟨⟨"a", "m", [1]⟩, some "p", none, none⟩ 0 .ok .ok "u"
        (.meta (some (bytesToHex (List.replicate 32 0))) (some 1))).1).toOption.isSome
      = true := by
  decide

/-- Claim **C2 (amended).** Only the R2 orchestrator probes before writing: when
its HEAD probe reports a truthy stored digest equal to the freshly computed
content hex, the conditional write is skipped entirely.  The Firebase and
Drive orchestrators perform their write on every control path — neither has
a pre-write probe or any deduplication. -/
theorem c2_only_r2_skips_the_write :
    (∀ (H : List Nat → List Nat) (env : R2Env) (params : UploadParams)
        (ts : Nat) (hex : String) (len : Option Nat) (putResp : PutOutcome)
        (v : HeadOutcome),
      sriToHex (computeSRI H params.file.data "sha256") = .ok hex → hex ≠ "" →
      (r2UploadFile H env params ts (.ok (some hex) len) putResp v).2 = false) ∧
    (∀ (H : List Nat → List Nat) (M : String → String) (b : String)
        (params : UploadParams) (ts : Nat) (s : SaveOutcome) (p : PublicOutcome)
        (u : String) (g : GcsOutcome),
      (firebaseUploadFile H M b params ts s p u g).2 = true) ∧
    (∀ (H : List Nat → List Nat) (M : String → String) (params : UploadParams)
        (sh : Bool) (cr : Except Unit String) (l : Option DriveLinks)
        (dg : DriveOutcome),
      (driveUploadFile H M params sh cr l dg).2 = true) := by
  refine ⟨?_, ?_, ?_⟩
  · intro H env params ts hex len putResp v hsri hne
    unfold r2UploadFile
    dsimp only
    have hx : r2ComputeExists (.ok (some hex) len) hex = .ok true := by
      simp [r2ComputeExists, hne]
    simp only [hsri, hx]
    simp
  · intro H M b params ts s p u g
    unfold firebaseUploadFile
    dsimp only
    repeat' (first | rfl | split)
  · intro H M params sh cr l dg
    unfold driveUploadFile
    dsimp only
    repeat' (first | rfl | split)

/-- Claim **C2 amended witness.** The dichotomy evaluated on concrete runs: an R2
run whose probe reports the matching digest (no write), and Firebase/Drive
runs (write performed). -/
theorem c2_only_r2_skips_the_write_witness :
    (r2UploadFile (fun _ => List.replicate 32 0) ⟨"b", "cdn"⟩
        ⟨⟨"a", "m", [1]⟩, some "p", none, none⟩ 0
        (.ok (some (bytesToHex (List.replicate 32 0))) (some 1)) .ok
        (.ok (some (bytesToHex (List.replicate 32 0))) (some 1))).2 = false ∧
    (firebaseUploadFile (fun _ => List.replicate 32 0) (fun s => s) "bkt"
        ⟨⟨"a", "m", [1]⟩, some "p", none, none⟩ 0 .ok .ok "u"
        (.meta none (some 1))).2 = true ∧
    (driveUploadFile (fun _ => List.replicate 32 0) (fun s => s)
        ⟨⟨"a", "m", [1]⟩, some "p", none, none⟩ false (.ok "fid") none
        (.ok (some 1))).2 = true :=
  ⟨c2_only_r2_skips_the_write.1 (fun _ => List.replicate 32 0) ⟨"b", "cdn"⟩
      ⟨⟨"a", "m", [1]⟩, some "p", none, none⟩ 0
      (bytesToHex (List.replicate 32 0)) (some 1) .ok
      (.ok (some (bytesToHex (List.replicate 32 0))) (some 1))
      (by decide) (by decide),
   c2_only_r2_skips_the_write.2.1 (fun _ => List.replicate 32 0) (fun s => s)
      "bkt" ⟨⟨"a", "m", [1]⟩, some "p", none, none⟩ 0 .ok .ok "u"
      (.meta none (some 1)),
   c2_only_r2_skips_the_write.2.2 (fun _ => List.replicate 32 0) (fun s => s)
      ⟨⟨"a", "m", [1]⟩, some "p", none, none⟩ false (.ok "fid") none
      (.ok (some 1))⟩

/-- A successful `r2Finalize` means the universal verification on the
returned result passed all three checks. -/
theorem r2Finalize_ok (env : R2Env) (key integrity : String) (size : Nat)
    (verifyHead : HeadOutcome) (r : StorageResult)
    (h : r2Finalize env key integrity size verifyHead = .ok r) :
    ∃ o, verifyStorage ⟨r.locator, r.provider, r.integrity, r.sizeBytes⟩
        ⟨some verifyHead, none, none⟩ = .ok o ∧
      o.exists_ = true ∧ o.integrityMatches ≠ .fls ∧ o.sizeMatches ≠ some false := by
  unfold r2Finalize at h
  split at h
  · simp at h
  · next result heq =>
      split at h
      · simp at h
      · next o hv =>
          split at h
          next hex1 => simp at h
          next hex1 =>
            split at h
            next hin => simp at h
            next hin =>
              split at h
              next hsz => simp at h
              next hsz =>
                have hr : result = r := by simpa using h
                subst hr
                refine ⟨o, hv, ?_, hin, hsz⟩
                cases ho : o.exists_
                · exact absurd ho hex1
                · rfl

/-- Claim **C1.** A 412 precondition failure on the conditional write is folded
into success: with the probe reporting the object absent, the whole upload
run with a 412-failing PUT is *identical* to the run with a succeeding PUT —
the Storage Result is still built and the post-write verification still
performed — and whenever that run returns a result, the verification on it
necessarily succeeded (object exists, no digest mismatch, no size
mismatch). -/
theorem c1_race_folded_into_success (H : List Nat → List Nat) (env : R2Env)
    (params : UploadParams) (ts : Nat) (headResp : HeadOutcome)
    (verifyHead : HeadOutcome) (hex : String)
    (hsri : sriToHex (computeSRI H params.file.data "sha256") = .ok hex)
    (habsent : r2ComputeExists headResp hex = .ok false) :
    r2UploadFile H env params ts headResp (.err (some 412)) verifyHead =
      r2UploadFile H env params ts headResp .ok verifyHead ∧
    ∀ r, (r2UploadFile H env params ts headResp (.err (some 412)) verifyHead).1 =
        .ok r →
      ∃ o, verifyStorage ⟨r.locator, r.provider, r.integrity, r.sizeBytes⟩
          ⟨some verifyHead, none, none⟩ = .ok o ∧
        o.exists_ = true ∧ o.integrityMatches ≠ .fls ∧ o.sizeMatches ≠ some false := by
  have hrun : ∀ pr : PutOutcome, r2PutStep pr = .ok () →
      r2UploadFile H env params ts headResp pr verifyHead =
        (r2Finalize env
          (buildImmutableKey H params.file.name params.file.data
            (params.uploadPath.getD ("OBJ_" ++ toString ts)) true).key
          (computeSRI H params.file.data "sha256")
          params.file.data.length verifyHead, true) := by
    intro pr hpr
    unfold r2UploadFile
    dsimp only
    simp only [hsri, habsent, hpr]
    simp
  refine ⟨?_, ?_⟩
  · rw [hrun (.err (some 412)) rfl, hrun .ok rfl]
  · intro r hr
    rw [hrun (.err (some 412)) rfl] at hr
    exact r2Finalize_ok env _ _ _ verifyHead r hr

/-- Claim **C1 witness.** The race scenario evaluated concretely: probe HEAD 404,
PUT answered 412, verification HEAD reporting the matching digest and
size. -/
theorem c1_race_folded_into_success_witness :
    (r2UploadFile (fun _ => List.replicate 32 0) ⟨"b", "cdn"⟩
        ⟨⟨"a", "m", [1]⟩, some "p", none, none⟩ 0 (.err (some 404))
        (.err (some 412))
        (.ok (some (bytesToHex (List.replicate 32 0))) (some 1)) =
      r2UploadFile (fun _ => List.replicate 32 0) ⟨"b", "cdn"⟩
        ⟨⟨"a", "m", [1]⟩, some "p", none, none⟩ 0 (.err (some 404)) .ok
        (.ok (some (bytesToHex (List.replicate 32 0))) (some 1))) ∧
    ∃ o, verifyStorage
        ⟨(r2BuildResult ⟨"b", "cdn"⟩
            (buildImmutableKey (fun _ => List.replicate 32 0) "a" [1] "p" true).key
            (computeSRI (fun _ => List.replicate 32 0) [1] "sha256") 1).locator,
         (r2BuildResult ⟨"b", "cdn"⟩
            (buildImmutableKey (fun _ => List.replicate 32 0) "a" [1] "p" true).key
            (computeSRI (fun _ => List.replicate 32 0) [1] "sha256") 1).provider,
         (r2BuildResult ⟨"b", "cdn"⟩
            (buildImmutableKey (fun _ => List.replicate 32 0) "a" [1] "p" true).key
            (computeSRI (fun _ => List.replicate 32 0) [1] "sha256") 1).integrity,
         (r2BuildResult ⟨"b", "cdn"⟩
            (buildImmutableKey (fun _ => List.replicate 32 0) "a" [1] "p" true).key
            (computeSRI (fun _ => List.replicate 32 0) [1] "sha256") 1).sizeBytes⟩
        ⟨some (.ok (some (bytesToHex (List.replicate 32 0))) (some 1)), none, none⟩ =
        .ok o ∧
      o.exists_ = true ∧ o.integrityMatches ≠ .fls ∧ o.sizeMatches ≠ some false :=
  let t := c1_race_folded_into_success (fun _ => List.replicate 32 0) ⟨"b", "cdn"⟩
    ⟨⟨"a", "m", [1]⟩, some "p", none, none⟩ 0 (.err (some 404))
    (.ok (some (bytesToHex (List.replicate 32 0))) (some 1))
    (bytesToHex (List.replicate 32 0)) (by decide) (by decide)
  ⟨t.1, t.2 (r2BuildResult ⟨"b", "cdn"⟩
      (buildImmutableKey (fun _ => List.replicate 32 0) "a" [1] "p" true).key
      (computeSRI (fun _ => List.replicate 32 0) [1] "sha256") 1) (by decide)⟩

/-- With no expected digest and no expected size, a non-throwing R2
verification always reports `'unknown'` integrity and unset size. -/
theorem verifyR2_no_expected : ∀ (r2 : Option HeadOutcome) (o : VerifyOutcome),
    verifyR2 r2 none none = .ok o →
    o.integrityMatches = .unknown ∧ o.sizeMatches = none
  | none, o, h => by
      simp only [verifyR2, Except.ok.injEq] at h
      subst h
      exact ⟨rfl, rfl⟩
  | some (.ok s l), o, h => by
      simp only [verifyR2, Except.ok.injEq] at h
      subst h
      exact ⟨rfl, rfl⟩
  | some (.err none), o, h => by simp [verifyR2] at h
  | some (.err (some code)), o, h => by
      simp only [verifyR2] at h
      by_cases hc : code = 403 ∨ code = 404
      · rw [if_pos hc] at h
        simp only [Except.ok.injEq] at h
        subst h
        exact ⟨rfl, rfl⟩
      · rw [if_neg hc] at h
        simp at h

/-- With no expected digest and no expected size, a non-throwing Firebase
verification always reports `'unknown'` integrity and unset size. -/
theorem verifyFirebase_no_expected : ∀ (g : Option GcsOutcome) (o : VerifyOutcome),
    verifyFirebase g none none = .ok o →
    o.integrityMatches = .unknown ∧ o.sizeMatches = none
  | none, o, h => by
      simp only [verifyFirebase, Except.ok.injEq] at h
      subst h
      exact ⟨rfl, rfl⟩
  | some .existsThrew, o, h => by simp [verifyFirebase] at h
  | some .notExists, o, h => by
      simp only [verifyFirebase, Except.ok.injEq] at h
      subst h
      exact ⟨rfl, rfl⟩
  | some .metadataThrew, o, h => by simp [verifyFirebase] at h
  | some (.meta sha sz), o, h => by
      simp only [verifyFirebase, Except.ok.injEq] at h
      subst h
      exact ⟨rfl, rfl⟩

/-- With no expected size, a non-throwing Drive verification always reports
`'unknown'` integrity and unset size. -/
theorem verifyDrive_no_expected : ∀ (d : Option DriveOutcome) (o : VerifyOutcome),
    verifyDrive d none = .ok o →
    o.integrityMatches = .unknown ∧ o.sizeMatches = none
  | none, o, h => by
      simp only [verifyDrive, Except.ok.injEq] at h
      subst h
      exact ⟨rfl, rfl⟩
  | some (.ok sz), o, h => by
      simp only [verifyDrive, Except.ok.injEq] at h
      subst h
      exact ⟨rfl, rfl⟩
  | some (.err code), o, h => by
      simp only [verifyDrive] at h
      by_cases hc : code = some 404 ∨ code = some 403
      · rw [if_pos hc] at h
        simp only [Except.ok.injEq] at h
        subst h
        exact ⟨rfl, rfl⟩
      · rw [if_neg hc] at h
        simp at h

/-- With no digest tag, `verifyStorage` dispatches with both expectations
absent. -/
theorem verifyStorage_no_integrity (input : VerifyInput) (ctx : VerifyContext)
    (hint : input.integrity = none) :
    verifyStorage input ctx =
      match effectiveProvider input with
      | some .r2 => verifyR2 ctx.r2 none none
      | some .firebase => verifyFirebase ctx.firebase none none
      | some .drive => verifyDrive ctx.drive none
      | none => .ok ⟨false, .unknown, none, some "Unknown provider"⟩ := by
  unfold verifyStorage
  rw [hint]

/-- Claim **C7.** For every verify call whose input carries no digest tag,
a returned outcome has `integrityMatches = 'unknown'` — never `true`, never
`false` — whatever the backends report, across all three provider branches
and the unknown-provider branch. -/
theorem c7_no_digest_gives_unknown (input : VerifyInput) (ctx : VerifyContext)
    (o : VerifyOutcome) (hint : input.integrity = none)
    (h : verifyStorage input ctx = .ok o) :
    o.integrityMatches = .unknown := by
  rw [verifyStorage_no_integrity input ctx hint] at h
  rcases hp : effectiveProvider input with _ | p
  · rw [hp] at h
    simp only [Except.ok.injEq] at h
    subst h
    rfl
  · cases p
    · rw [hp] at h
      exact (verifyR2_no_expected _ _ h).1
    · rw [hp] at h
      exact (verifyFirebase_no_expected _ _ h).1
    · rw [hp] at h
      exact (verifyDrive_no_expected _ _ h).1

/-- Claim **C7 witness.** A digest-less verify of an existing R2 object whose
backend even reports a stored digest: the outcome is still `'unknown'`. -/
theorem c7_no_digest_gives_unknown_witness :
    (⟨true, .unknown, none, none⟩ : VerifyOutcome).integrityMatches = .unknown :=
  c7_no_digest_gives_unknown ⟨some (.r2 "b" "k"), none, none, some 5⟩
    ⟨some (.ok (some "feed") (some 5)), none, none⟩
    ⟨true, .unknown, none, none⟩ rfl (by decide)

/-- Claim **C8 counterexample.** A Storage Result carrying `sizeBytes = 3` but no
digest tag, verified against a backend whose HEAD reports exactly
`ContentLength = 3`: the outcome leaves `sizeMatches` unset (`none`), it is
not set to `true` — without a digest tag the size is never compared, because
`expectedSize` is only assigned inside the `if (integrity)` branch. -/
theorem c8_size_not_compared_counterexample :
    verifyStorage ⟨some (.r2 "b" "k"), none, none, some 3⟩
      ⟨some (.ok (some "feed") (some 3)), none, none⟩ =
      .ok ⟨true, .unknown, none, none⟩ := by
  decide

/-- Claim **C8 (amended).** Without a digest tag, comparisons degrade to existence
only, not existence/size: every non-throwing verify outcome for an input
with no `integrity` field has `sizeMatches` unset, even when the input
carries `sizeBytes` — the expected size is only taken from `sizeBytes`
together with the decoded digest tag. -/
theorem c8_no_digest_no_size_comparison (input : VerifyInput)
    (ctx : VerifyContext) (o : VerifyOutcome) (hint : input.integrity = none)
    (h : verifyStorage input ctx = .ok o) :
    o.sizeMatches = none := by
  rw [verifyStorage_no_integrity input ctx hint] at h
  rcases hp : effectiveProvider input with _ | p
  · rw [hp] at h
    simp only [Except.ok.injEq] at h
    subst h
    rfl
  · cases p
    · rw [hp] at h
      exact (verifyR2_no_expected _ _ h).2
    · rw [hp] at h
      exact (verifyFirebase_no_expected _ _ h).2
    · rw [hp] at h
      exact (verifyDrive_no_expected _ _ h).2

/-- Claim **C8 amended witness.** The degraded comparison evaluated at the
counterexample's input. -/
theorem c8_no_digest_no_size_comparison_witness :
    (⟨true, .unknown, none, none⟩ : VerifyOutcome).sizeMatches = none :=
  c8_no_digest_no_size_comparison ⟨some (.r2 "b" "k"), none, none, some 3⟩
    ⟨some (.ok (some "feed") (some 3)), none, none⟩
    ⟨true, .unknown, none, none⟩ rfl (by decide)

/-- Claim **C9.** Backend error handling of the verification metadata call, for
the two backends that surface status codes: a 403 or 404 yields
`{exists: false, integrityMatches: 'unknown'}` without throwing, and any
other backend error — a 500, or an error carrying no status code at all —
propagates out of `verifyStorage` uncaught. -/
theorem c9_verify_error_dichotomy (input : VerifyInput) (ctx : VerifyContext)
    (hint : input.integrity = none) :
    (∀ st : Nat, effectiveProvider input = some .r2 →
      ctx.r2 = some (.err (some st)) →
      ((st = 403 ∨ st = 404) →
        verifyStorage input ctx = .ok ⟨false, .unknown, none, none⟩) ∧
      (¬(st = 403 ∨ st = 404) →
        verifyStorage input ctx = .error .backendError)) ∧
    (effectiveProvider input = some .r2 → ctx.r2 = some (.err none) →
      verifyStorage input ctx = .error .backendError) ∧
    (∀ c : Nat, effectiveProvider input = some .drive →
      ctx.drive = some (.err (some c)) →
      ((c = 403 ∨ c = 404) →
        verifyStorage input ctx = .ok ⟨false, .unknown, none, none⟩) ∧
      (¬(c = 403 ∨ c = 404) →
        verifyStorage input ctx = .error .backendError)) ∧
    (effectiveProvider input = some .drive → ctx.drive = some (.err none) →
      verifyStorage input ctx = .error .backendError) := by
  have hv := verifyStorage_no_integrity input ctx hint
  refine ⟨?_, ?_, ?_, ?_⟩
  · intro st hprov hr2
    rw [hv]
    simp only [hprov, hr2]
    constructor
    · intro hc
      simp [verifyR2, hc]
    · intro hc
      simp [verifyR2, hc]
  · intro hprov hr2
    rw [hv]
    simp only [hprov, hr2]
    simp [verifyR2]
  · intro c hprov hdrive
    rw [hv]
    simp only [hprov, hdrive]
    constructor
    · intro hc
      have hsome : (some c = some 404 ∨ some c = some 403) := by
        rcases hc with rfl | rfl
        · exact Or.inr rfl
        · exact Or.inl rfl
      simp [verifyDrive, hsome]
      omega
    · intro hc
      have h404 : c ≠ 404 := fun e => hc (Or.inr e)
      have h403 : c ≠ 403 := fun e => hc (Or.inl e)
      simp [verifyDrive, h403, h404]
  · intro hprov hdrive
    rw [hv]
    simp only [hprov, hdrive]
    simp [verifyDrive]

/-- Claim **C9 witness.** The dichotomy at a 404 and at a 500 on both backends. -/
theorem c9_verify_error_dichotomy_witness :
    verifyStorage ⟨some (.r2 "b" "k"), none, none, none⟩
        ⟨some (.err (some 404)), none, none⟩ =
      .ok ⟨false, .unknown, none, none⟩ ∧
    verifyStorage ⟨some (.drive "f" false), none, none, none⟩
        ⟨none, none, some (.err (some 500))⟩ = .error .backendError :=
  ⟨((c9_verify_error_dichotomy ⟨some (.r2 "b" "k"), none, none, none⟩
      ⟨some (.err (some 404)), none, none⟩ rfl).1 404 rfl rfl).1 (Or.inr rfl),
   ((c9_verify_error_dichotomy ⟨some (.drive "f" false), none, none, none⟩
      ⟨none, none, some (.err (some 500))⟩ rfl).2.2.1 500 rfl rfl).2 (by omega)⟩

/-- Claim **C10.** Deleting a locator whose object no longer exists succeeds with
no error on every backend: R2's delete primitive is idempotent at the API
level, the Firebase path passes `ignoreNotFound: true`, and the Drive path
catches the backend's 404 — `deleteFileFromStorage` treats not-found as
success. -/
theorem c10_delete_not_found_succeeds (input : VerifyInput)
    (ctx : DeleteContext) (w : DeleteWorld) (p : Provider)
    (hp : effectiveProvider input = some p)
    (hclient : (p = .r2 → ctx.r2 = true) ∧ (p = .firebase → ctx.firebase = true) ∧
      (p = .drive → ctx.drive = true))
    (habsent : w.r2ObjectExists = false ∧ w.firebaseObjectExists = false ∧
      w.driveFileExists = false) :
    deleteFileFromStorage input ctx w = .ok () := by
  unfold deleteFileFromStorage
  rw [hp]
  cases p
  · simp [deleteR2, hclient.1 rfl, s3DeleteObject]
  · simp [deleteFirebase, hclient.2.1 rfl, gcsFileDelete]
  · simp [deleteDrive, hclient.2.2 rfl, driveFilesDelete, habsent.2.2]

/-- Claim **C10 witness.** Deleting an already-gone Drive file with all clients
supplied succeeds. -/
theorem c10_delete_not_found_succeeds_witness :
    deleteFileFromStorage ⟨some (.drive "f" false), none, none, none⟩
      ⟨true, true, true⟩ ⟨false, false, false⟩ = .ok () :=
  c10_delete_not_found_succeeds ⟨some (.drive "f" false), none, none, none⟩
    ⟨true, true, true⟩ ⟨false, false, false⟩ .drive rfl
    ⟨by decide, by decide, by decide⟩ ⟨rfl, rfl, rfl⟩

end MediaStorage
